import Mathlib

/-!
Verification of the scraping core of the local-shop server.

The definitions below are a shallow embedding of the relevant parts of
the server source (server/index.js): the URL discoverer
(extractUrlsFromText plus the dedup step of the scrape route), the site
profile registry (SITE_CONFIGS, getSiteConfig), the field extractor
(extractFromSelectors, extractPrice, title and image derivation), the
products table with its upsert (INSERT OR REPLACE keyed on
(id, workspace_id)), and the batch scrape orchestrator of the
POST /api/scrape route.  Documents, network fetches and the hash are
modelled as explicit data and oracle functions; the per-request side
effects (DB table, fetch attempts, response records) are threaded as
explicit state.
-/

namespace LocalShop

/-- JS truthiness of an optional string value: undefined, null and the
empty string are falsy, every other string is truthy. -/
def strTruthy : Option String → Bool
  | none => false
  | some s => s != ""

/-- Model of the JS expression a OR b under a truthiness guard: the first
truthy operand, or none when both operands are falsy. -/
def jsOr (a b : Option String) : Option String :=
  if strTruthy a then a else if strTruthy b then b else none

/-- Characters of the regex whitespace class that can occur in the inputs
we model (space, tab, newline, carriage return, vertical tab, form feed). -/
def jsSpace (c : Char) : Bool :=
  c == ' ' || c == '\t' || c == '\n' || c == '\r' || c == '\x0b' || c == '\x0c'

/-- Longest run of non-whitespace characters at the head of the list,
paired with the remaining characters: the greedy match of the regex
piece that follows the scheme in extractUrlsFromText. -/
def takeNonSpace : List Char → List Char × List Char
  | [] => ([], [])
  | c :: cs =>
    if jsSpace c then ([], c :: cs)
    else
      let p := takeNonSpace cs
      (c :: p.1, p.2)

/-- Drop an expected literal from the head of a character list; none when
the list does not start with the literal. -/
def dropLit : List Char → List Char → Option (List Char)
  | [], rest => some rest
  | _ :: _, [] => none
  | c :: cs, d :: ds => if c == d then dropLit cs ds else none

/-- Attempt to match the URL regex of extractUrlsFromText at the current
position: the scheme http or https, the separator, then one or more
non-whitespace characters (greedy).  Returns the matched characters and
the rest of the input. -/
def tryMatchAt (l : List Char) : Option (List Char × List Char) :=
  match dropLit ("http".toList) l with
  | none => none
  | some rest1 =>
    let stepped : List Char × List Char :=
      match rest1 with
      | 's' :: r => ("https".toList, r)
      | r => ("http".toList, r)
    match dropLit ("://".toList) stepped.2 with
    | none => none
    | some rest3 =>
      match takeNonSpace rest3 with
      | ([], _) => none
      | (b :: bs, rest4) => some (stepped.1 ++ ("://".toList ++ (b :: bs)), rest4)

/-- Fuelled global scan for URL matches, advancing one character on
failure and past the whole match on success, exactly as a global regex
match proceeds.  The fuel bounds the recursion; callers pass the input
length, which suffices because every step consumes at least one
character. -/
def scanUrlsFuel : Nat → List Char → List String
  | 0, _ => []
  | _ + 1, [] => []
  | fuel + 1, c :: cs =>
    match tryMatchAt (c :: cs) with
    | some (u, r) => String.mk u :: scanUrlsFuel fuel r
    | none => scanUrlsFuel fuel cs

/-- All matches of the URL regex in the input, in order. -/
def scanUrls (l : List Char) : List String := scanUrlsFuel l.length l

/-- Characters stripped from the end of each match by extractUrlsFromText:
period, comma, semicolon and closing parenthesis. -/
def isTrailPunct (c : Char) : Bool :=
  c == '.' || c == ',' || c == ';' || c == ')'

/-- Remove the trailing run of punctuation characters from a match, the
replace step of extractUrlsFromText. -/
def stripTrailingPunct (s : String) : String :=
  String.mk ((s.toList.reverse.dropWhile isTrailPunct).reverse)

/-- extractUrlsFromText of the source: all regex matches, each with its
trailing punctuation stripped.  Deduplication happens later, in the
scrape route. -/
def extractUrlsFromText (text : String) : List String :=
  (scanUrls text.toList).map stripTrailingPunct

/-- Deduplication keeping the first occurrence of each element, the
behaviour of building a JS Set from a list and spreading it back. -/
def firstSeenDedupAux : List String → List String → List String
  | _, [] => []
  | seen, x :: xs =>
    if x ∈ seen then firstSeenDedupAux seen xs
    else x :: firstSeenDedupAux (x :: seen) xs

/-- Deduplication of a list of URLs preserving first-seen order. -/
def firstSeenDedup (l : List String) : List String := firstSeenDedupAux [] l

/-- An offers object of a JSON-LD product block: the fields the source
reads, each possibly absent. -/
structure Offer where
  price : Option String
  lowPrice : Option String
  priceCurrency : Option String
deriving DecidableEq

/-- The offers field of a JSON-LD item: absent, a single object, or an
array of objects. -/
inductive LdOffers where
  | missing : LdOffers
  | single : Offer → LdOffers
  | many : List Offer → LdOffers
deriving DecidableEq

/-- One object inside a parsed JSON-LD block: the type tag read from the
at-type field, and the offers field. -/
structure LdItem where
  itemType : Option String
  offers : LdOffers
deriving DecidableEq

/-- A JSON-LD script block: none when JSON.parse throws, otherwise the
parsed data wrapped into a list (a lone object becomes a singleton). -/
abbrev LdScript := Option (List LdItem)

/-- Resolution of the offers field as in the source: an array is replaced
by its first element, which is absent for an empty array. -/
def resolveOffers : LdOffers → Option Offer
  | LdOffers.missing => none
  | LdOffers.single o => some o
  | LdOffers.many l => l.head?

/-- Price derived from a single JSON-LD item: only Product and
ProductGroup types qualify; the price field is preferred over lowPrice;
the value is the currency (empty when falsy), a space, and the amount. -/
def itemPrice (it : LdItem) : Option String :=
  if it.itemType == some "Product" || it.itemType == some "ProductGroup" then
    match resolveOffers it.offers with
    | none => none
    | some o =>
      if strTruthy o.price then
        some ((if strTruthy o.priceCurrency then o.priceCurrency.getD "" else "") ++ " " ++ o.price.getD "")
      else if strTruthy o.lowPrice then
        some ((if strTruthy o.priceCurrency then o.priceCurrency.getD "" else "") ++ " " ++ o.lowPrice.getD "")
      else none
  else none

/-- Price derived from one script block: the first item that yields a
price wins within the block, matching the break out of the item loop. -/
def blockPrice : LdScript → Option String
  | none => none
  | some items => items.findSome? itemPrice

/-- One step of the fold over script blocks: a block with a match
overwrites the accumulator, a block without one leaves it unchanged.
This mirrors the price variable of the source, which the per-block
callback reassigns without stopping the outer loop. -/
def jsonLdStep (acc : Option String) (s : LdScript) : Option String :=
  match blockPrice s with
  | some p => some p
  | none => acc

/-- The JSON-LD pass of extractPrice: fold over all script blocks. -/
def jsonLdPrice (scripts : List LdScript) : Option String :=
  scripts.foldl jsonLdStep none

/-- The first element a selector query returns: whether it is an image
element, its src and data-src attributes, and its text content. -/
structure Elem where
  isImg : Bool
  src : Option String
  dataSrc : Option String
  text : String

/-- A fetched document, abstracted to the queries the source performs on
it: selector lookup, JSON-LD script blocks, the price meta tags, and the
generic title and image sources. -/
structure Doc where
  sel : String → Option Elem
  ldScripts : List LdScript
  metaPriceAmount : Option String
  metaPriceCurrency : Option String
  ogTitle : Option String
  titleText : String
  ogImage : Option String
  firstImgSrc : Option String

/-- Value produced by one selector in extractFromSelectors: for an image
element the src attribute or the data-src attribute when truthy,
otherwise the trimmed text content when non-empty. -/
def elemValue : Option Elem → Option String
  | none => none
  | some el =>
    match (if el.isImg then jsOr el.src el.dataSrc else none) with
    | some v => some v
    | none => if el.text.trim != "" then some el.text.trim else none

/-- extractFromSelectors of the source: the first selector that yields a
value wins; an absent selector list yields nothing. -/
def extractFromSelectors (doc : Doc) (selectors : Option (List String)) : Option String :=
  match selectors with
  | none => none
  | some sels => sels.findSome? (fun s => elemValue (doc.sel s))

/-- A site profile of SITE_CONFIGS: ordered selector lists per field. -/
structure SiteConfig where
  name : String
  domains : List String
  titleSelectors : Option (List String)
  imageSelectors : Option (List String)
  priceSelectors : Option (List String)
deriving DecidableEq

/-- The static site profile registry, in registration order, transcribed
from SITE_CONFIGS of the source. -/
def SITE_CONFIGS : List SiteConfig :=
  [ { name := "amazon", domains := ["amazon", "amzn"],
      titleSelectors := some ["#productTitle"],
      imageSelectors := some ["#landingImage", "#imgTagWrapperId img"],
      priceSelectors := some [".a-price .a-offscreen", "#priceblock_ourprice", "#priceblock_dealprice", "#corePrice_desktop .a-price .a-offscreen", ".a-price-whole"] },
    { name := "flipkart", domains := ["flipkart"],
      titleSelectors := some [".B_NuCI", "h1._3wtzKS"],
      imageSelectors := some ["img._396cs4", "img._2r_T1I"],
      priceSelectors := some ["div.Nx9bqj", "div._30jeq3", "div._25b18c ._30jeq3"] },
    { name := "ajio", domains := ["ajio"],
      titleSelectors := some ["h1.prod-name"],
      imageSelectors := none,
      priceSelectors := some [".prod-sp"] },
    { name := "bewakoof", domains := ["bewakoof"],
      titleSelectors := some ["h1#testProName"],
      imageSelectors := none,
      priceSelectors := some ["span#testNetProdPrice", ".sellingPrice"] },
    { name := "tatacliq", domains := ["tatacliq"],
      titleSelectors := some ["h1.ProductDetailsMain__productName"],
      imageSelectors := none,
      priceSelectors := some ["div.ProductDetailsMain__price", "h3"] },
    { name := "souledstore", domains := ["thesouledstore"],
      titleSelectors := some ["h1.product-name"],
      imageSelectors := none,
      priceSelectors := some [".product-price .price", ".special-price"] },
    { name := "decathlon", domains := ["decathlon"],
      titleSelectors := some ["h1"],
      imageSelectors := none,
      priceSelectors := some [".prc__active-price"] },
    { name := "nykaafashion", domains := ["nykaafashion"],
      titleSelectors := some ["h1"],
      imageSelectors := none,
      priceSelectors := some ["span.css-1jczs19"] } ]

/-- Does the first list occur as a prefix of the second. -/
def listHasPref : List Char → List Char → Bool
  | [], _ => true
  | _ :: _, [] => false
  | c :: cs, d :: ds => c == d && listHasPref cs ds

/-- Does the first list occur as a contiguous sublist of the second. -/
def listHasSub : List Char → List Char → Bool
  | n, [] => n.isEmpty
  | n, d :: ds => listHasPref n (d :: ds) || listHasSub n ds

/-- JS String.includes on our strings. -/
def strIncl (hay needle : String) : Bool := listHasSub needle.toList hay.toList

/-- Lower-casing of a URL as done before domain matching. -/
def jsToLower (s : String) : String := String.map Char.toLower s

/-- getSiteConfig of the source: the first registered profile one of
whose domain substrings occurs in the lower-cased URL. -/
def getSiteConfig (url : String) : Option SiteConfig :=
  SITE_CONFIGS.find? (fun c => c.domains.any (fun d => strIncl (jsToLower url) d))

/-- The first tier of extractPrice: the profile price selectors, guarded
by the presence of a matched profile with a priceSelectors field. -/
def profilePrice (doc : Doc) (cfg : Option SiteConfig) : Option String :=
  match cfg with
  | some c => if c.priceSelectors.isSome then extractFromSelectors doc c.priceSelectors else none
  | none => none

/-- extractPrice of the source: profile selectors, then JSON-LD, then the
price meta tags with default dollar currency, then the literal
fallback. -/
def extractPrice (doc : Doc) (cfg : Option SiteConfig) : String :=
  let p1 := profilePrice doc cfg
  if strTruthy p1 then p1.getD ""
  else
    let p2 := jsonLdPrice doc.ldScripts
    if strTruthy p2 then p2.getD ""
    else
      if strTruthy doc.metaPriceAmount then
        (if strTruthy doc.metaPriceCurrency then doc.metaPriceCurrency.getD "" else "$") ++ doc.metaPriceAmount.getD ""
      else "Check Site"

/-- Title derivation of the scrape route: og:title, else the title
element text, else the literal fallback; a profile title selector match
overrides the generic value. -/
def extractTitle (doc : Doc) (cfg : Option SiteConfig) : String :=
  let base :=
    if strTruthy doc.ogTitle then doc.ogTitle.getD ""
    else if doc.titleText != "" then doc.titleText
    else "No Title"
  match cfg with
  | none => base
  | some c =>
    let e := if c.titleSelectors.isSome then extractFromSelectors doc c.titleSelectors else none
    if strTruthy e then e.getD "" else base

/-- Image derivation of the scrape route: og:image, else the src of the
first image element, else empty; a profile image selector match
overrides the generic value. -/
def extractImage (doc : Doc) (cfg : Option SiteConfig) : String :=
  let base :=
    if strTruthy doc.ogImage then doc.ogImage.getD ""
    else if strTruthy doc.firstImgSrc then doc.firstImgSrc.getD ""
    else ""
  match cfg with
  | none => base
  | some c =>
    let e := if c.imageSelectors.isSome then extractFromSelectors doc c.imageSelectors else none
    if strTruthy e then e.getD "" else base

/-- extractSize of the source: a constant placeholder. -/
def extractSize (_doc : Doc) : String := "Visit Site"

/-- A row of the products table, and also the productData object the
route builds for a successful scrape. -/
structure ProductData where
  id : String
  workspace_id : Nat
  url : String
  title : String
  image : String
  price : String
  size : String
  is_favorite : Nat
deriving DecidableEq

/-- A record of the scrape response.  Fields absent from the JS object in
one of the two shapes (full record versus error stub) are options. -/
structure RespRecord where
  id : String
  workspace_id : Option Nat
  url : String
  error : Option String
  title : String
  image : String
  price : String
  size : String
  is_favorite : Option Nat
deriving DecidableEq

/-- The response record assembled from a product row: the shape pushed on
both a cache hit and a fresh scrape. -/
def okRecord (p : ProductData) : RespRecord :=
  { id := p.id, workspace_id := some p.workspace_id, url := p.url,
    error := none, title := p.title, image := p.image, price := p.price,
    size := p.size, is_favorite := some p.is_favorite }

/-- The error stub pushed when the fetch or the extraction throws. -/
def errStub (id url : String) : RespRecord :=
  { id := id, workspace_id := none, url := url,
    error := some "Failed to load product data",
    title := "Error Loading Product", image := "", price := "",
    size := "", is_favorite := none }

/-- The SELECT of the scrape route: the first row matching the id and the
workspace scope. -/
def lookupRow : List ProductData → String → Nat → Option ProductData
  | [], _, _ => none
  | r :: t, id, ws =>
    if r.id == id && r.workspace_id == ws then some r else lookupRow t id ws

/-- INSERT OR REPLACE on the products table, whose primary key is the
pair (id, workspace_id): conflicting rows are removed, then the new row
is inserted. -/
def insertOrReplace (t : List ProductData) (p : ProductData) : List ProductData :=
  t.filter (fun r => !(r.id == p.id && r.workspace_id == p.workspace_id)) ++ [p]

/-- Key uniqueness invariant of the products table within and across
workspace scopes: no two rows share the (id, workspace_id) pair. -/
def keysUnique (t : List ProductData) : Prop :=
  (t.map (fun r => (r.id, r.workspace_id))).Nodup

/-- The request environment: the feature flag for DB caching, the hash,
the network (none is a fetch failure), the DB write outcome oracle, and
the workspace scope after defaulting. -/
structure Env where
  dbEnabled : Bool
  hash : String → String
  fetch : String → Option Doc
  putOk : ProductData → Bool
  wsId : Nat

/-- The mutable state of one scrape request: the products table, the log
of attempted network fetches, and the accumulated response records. -/
structure ScrapeState where
  table : List ProductData
  fetchLog : List String
  results : List RespRecord
deriving DecidableEq

/-- The cache lookup of the route, short-circuited by the feature flag. -/
def lookupEnv (env : Env) (t : List ProductData) (url : String) : Option ProductData :=
  if env.dbEnabled then lookupRow t (env.hash url) env.wsId else none

/-- The productData object built for a successfully fetched page. -/
def buildRecord (hash : String → String) (wsId : Nat) (url : String) (doc : Doc) : ProductData :=
  let cfg := getSiteConfig url
  { id := hash url, workspace_id := wsId, url := url,
    title := (extractTitle doc cfg).trim,
    image := extractImage doc cfg,
    price := extractPrice doc cfg,
    size := extractSize doc,
    is_favorite := 0 }

/-- The body of the per-URL loop of the scrape route: cache hit pushes
the stored row; otherwise the page is fetched, a failure pushes the
error stub, and a success pushes the fresh record and upserts it when
the flag is on and the write does not throw. -/
def processUrl (env : Env) (st : ScrapeState) (url : String) : ScrapeState :=
  match lookupEnv env st.table url with
  | some cached => { st with results := st.results ++ [okRecord cached] }
  | none =>
    match env.fetch url with
    | none =>
      { st with fetchLog := st.fetchLog ++ [url],
                results := st.results ++ [errStub (env.hash url) url] }
    | some doc =>
      let p := buildRecord env.hash env.wsId url doc
      { st with fetchLog := st.fetchLog ++ [url],
                table := if env.dbEnabled && env.putOk p then insertOrReplace st.table p else st.table,
                results := st.results ++ [okRecord p] }

/-- The whole per-URL loop. -/
def scrapeLoop (env : Env) (urls : List String) (st : ScrapeState) : ScrapeState :=
  urls.foldl (processUrl env) st

/-- The raw urls field of the request body, as the JSON values the route
distinguishes. -/
inductive RawInput where
  | absent : RawInput
  | str : String → RawInput
  | arr : List String → RawInput
  | num : Int → RawInput
  | boolVal : Bool → RawInput
  | obj : RawInput
deriving DecidableEq

/-- JS truthiness of the raw input, the guard of the early rejection. -/
def rawTruthy : RawInput → Bool
  | RawInput.absent => false
  | RawInput.str s => s != ""
  | RawInput.arr _ => true
  | RawInput.num n => n != 0
  | RawInput.boolVal b => b
  | RawInput.obj => true

/-- URL extraction over the raw input: each string of an array input
contributes in order, a string input contributes directly, any other
shape contributes nothing. -/
def rawUrls : RawInput → List String
  | RawInput.str s => extractUrlsFromText s
  | RawInput.arr l => l.foldl (fun acc s => acc ++ extractUrlsFromText s) []
  | _ => []

/-- The URL discoverer of the route: extraction followed by first-seen
deduplication. -/
def discoverUrls (raw : RawInput) : List String := firstSeenDedup (rawUrls raw)

/-- The scrape response: the client error of the early rejection, or the
JSON list of records. -/
inductive ScrapeResponse where
  | clientError : String → ScrapeResponse
  | ok : List RespRecord → ScrapeResponse
deriving DecidableEq

/-- The POST scrape route: falsy input is rejected, otherwise the
discovered URLs are processed in order and the records returned.  The
final state is returned alongside to expose the side effects. -/
def scrapeEndpoint (env : Env) (t0 : List ProductData) (raw : RawInput) :
    ScrapeResponse × ScrapeState :=
  if rawTruthy raw then
    let st := scrapeLoop env (discoverUrls raw) ⟨t0, [], []⟩
    (ScrapeResponse.ok st.results, st)
  else
    (ScrapeResponse.clientError "Invalid input.", ⟨t0, [], []⟩)

/-- The record the route produces for one URL against a fixed table: the
stored row on a hit, the error stub on a fetch failure, the freshly
extracted record on a fetch success. -/
def soloRecord (env : Env) (t0 : List ProductData) (url : String) : RespRecord :=
  match lookupEnv env t0 url with
  | some cached => okRecord cached
  | none =>
    match env.fetch url with
    | none => errStub (env.hash url) url
    | some doc => okRecord (buildRecord env.hash env.wsId url doc)

/-- Whether processing a URL against a fixed table reaches the network. -/
def needsFetch (env : Env) (t0 : List ProductData) (url : String) : Bool :=
  (lookupEnv env t0 url).isNone

/-- A document with no selector matches, no JSON-LD, no meta tags and no
generic title or image sources. -/
def docEmpty : Doc :=
  { sel := fun _ => none, ldScripts := [], metaPriceAmount := none,
    metaPriceCurrency := none, ogTitle := none, titleText := "",
    ogImage := none, firstImgSrc := none }

/-- A JSON-LD block carrying a product priced 10 USD. -/
def ldBlockUSD : LdScript :=
  some [{ itemType := some "Product", offers := LdOffers.single { price := some "10", lowPrice := none, priceCurrency := some "USD" } }]

/-- A JSON-LD block carrying a product priced 20 EUR. -/
def ldBlockEUR : LdScript :=
  some [{ itemType := some "Product", offers := LdOffers.single { price := some "20", lowPrice := none, priceCurrency := some "EUR" } }]

/-- A document whose only price source is the single USD block. -/
def docLdOne : Doc := { docEmpty with ldScripts := [ldBlockUSD] }

/-- A document carrying the USD block followed by the EUR block. -/
def docLdTwo : Doc := { docEmpty with ldScripts := [ldBlockUSD, ldBlockEUR] }

/-- A concrete environment for instantiations: caching on, the identity
hash, every fetch failing, every DB write succeeding, scope 1. -/
def env0 : Env :=
  { dbEnabled := true, hash := fun s => s, fetch := fun _ => none,
    putOk := fun _ => true, wsId := 1 }

/-- A concrete cached row for the URL used in instantiations. -/
def rowA : ProductData :=
  { id := "http://a", workspace_id := 1, url := "http://a",
    title := "Cached Title", image := "", price := "USD 5",
    size := "Visit Site", is_favorite := 0 }

lemma of_strTruthy {o : Option String} (h : strTruthy o = true) :
    ∃ s, o = some s ∧ s ≠ "" := by
  cases o with
  | none => simp [strTruthy] at h
  | some s => exact ⟨s, rfl, by simpa [strTruthy] using h⟩

lemma jsOr_ne_empty {a b : Option String} {v : String} (h : jsOr a b = some v) : v ≠ "" := by
  unfold jsOr at h
  by_cases h1 : strTruthy a = true
  · rw [if_pos h1] at h
    obtain ⟨s, hs, hne⟩ := of_strTruthy h1
    rw [hs] at h
    cases h
    exact hne
  · rw [if_neg h1] at h
    by_cases h2 : strTruthy b = true
    · rw [if_pos h2] at h
      obtain ⟨s, hs, hne⟩ := of_strTruthy h2
      rw [hs] at h
      cases h
      exact hne
    · rw [if_neg h2] at h
      exact absurd h (by simp)

lemma elemValue_ne_empty {e : Option Elem} {v : String} (h : elemValue e = some v) : v ≠ "" := by
  cases e with
  | none => simp [elemValue] at h
  | some el =>
    unfold elemValue at h
    cases hi : (if el.isImg then jsOr el.src el.dataSrc else none) with
    | some w =>
      simp only [hi] at h
      have hw : w ≠ "" := by
        by_cases him : el.isImg = true
        · rw [if_pos him] at hi; exact jsOr_ne_empty hi
        · rw [if_neg him] at hi; exact absurd hi (by simp)
      cases h
      exact hw
    | none =>
      simp only [hi] at h
      by_cases ht : (el.text.trim != "") = true
      · rw [if_pos ht] at h
        cases h
        simpa using ht
      · rw [if_neg ht] at h
        exact absurd h (by simp)

lemma findSome_elemValue_ne_empty (doc : Doc) {v : String} :
    ∀ sels : List String,
      sels.findSome? (fun s => elemValue (doc.sel s)) = some v → v ≠ "" := by
  intro sels
  induction sels with
  | nil => intro h; simp [List.findSome?_nil] at h
  | cons s ss ih =>
    intro h
    rw [List.findSome?_cons] at h
    cases he : elemValue (doc.sel s) with
    | some w =>
      simp only [he] at h
      cases h
      exact elemValue_ne_empty he
    | none =>
      simp only [he] at h
      exact ih h

lemma extractFromSelectors_ne_empty {doc : Doc} {sels : Option (List String)} {v : String}
    (h : extractFromSelectors doc sels = some v) : v ≠ "" := by
  cases sels with
  | none => simp [extractFromSelectors] at h
  | some l => exact findSome_elemValue_ne_empty doc l h

lemma profilePrice_ne_empty {doc : Doc} {cfg : Option SiteConfig} {v : String}
    (h : profilePrice doc cfg = some v) : v ≠ "" := by
  cases cfg with
  | none => simp [profilePrice] at h
  | some c =>
    simp only [profilePrice] at h
    by_cases hp : c.priceSelectors.isSome = true
    · rw [if_pos hp] at h; exact extractFromSelectors_ne_empty h
    · rw [if_neg hp] at h; exact absurd h (by simp)

lemma append_mid_space_ne_empty (c p : String) : c ++ " " ++ p ≠ "" := by
  intro h
  have h2 : (c ++ " " ++ p).length = 0 := by rw [h]; rfl
  rw [String.length_append, String.length_append] at h2
  have h3 : String.length " " = 1 := rfl
  omega

lemma itemPrice_ne_empty {it : LdItem} {v : String} (h : itemPrice it = some v) : v ≠ "" := by
  unfold itemPrice at h
  by_cases h1 : (it.itemType == some "Product" || it.itemType == some "ProductGroup") = true
  · rw [if_pos h1] at h
    cases ho : resolveOffers it.offers with
    | none =>
      simp only [ho] at h
      exact absurd h (by simp)
    | some o =>
      simp only [ho] at h
      by_cases hp : strTruthy o.price = true
      · rw [if_pos hp] at h
        cases h
        exact append_mid_space_ne_empty _ _
      · rw [if_neg hp] at h
        by_cases hl : strTruthy o.lowPrice = true
        · rw [if_pos hl] at h
          cases h
          exact append_mid_space_ne_empty _ _
        · rw [if_neg hl] at h
          exact absurd h (by simp)
  · rw [if_neg h1] at h
    exact absurd h (by simp)

lemma blockPrice_ne_empty {s : LdScript} {v : String} (h : blockPrice s = some v) : v ≠ "" := by
  cases s with
  | none => simp [blockPrice] at h
  | some items =>
    simp only [blockPrice] at h
    induction items with
    | nil => simp [List.findSome?_nil] at h
    | cons it its ih =>
      rw [List.findSome?_cons] at h
      cases hit : itemPrice it with
      | some w =>
        simp only [hit] at h
        cases h
        exact itemPrice_ne_empty hit
      | none =>
        simp only [hit] at h
        exact ih h

lemma jsonLdFold_ne_empty :
    ∀ (scripts : List LdScript) (acc : Option String),
      (∀ x : String, acc = some x → x ≠ "") →
      ∀ q : String, scripts.foldl jsonLdStep acc = some q → q ≠ "" := by
  intro scripts
  induction scripts with
  | nil => intro acc hacc q h; exact hacc q h
  | cons s ss ih =>
    intro acc hacc q h
    rw [List.foldl_cons] at h
    refine ih (jsonLdStep acc s) ?_ q h
    intro x hx
    unfold jsonLdStep at hx
    cases hbp : blockPrice s with
    | some p =>
      rw [hbp] at hx
      exact Option.some_injective _ hx ▸ blockPrice_ne_empty hbp
    | none => rw [hbp] at hx; exact hacc x hx

lemma jsonLdPrice_ne_empty {scripts : List LdScript} {q : String}
    (h : jsonLdPrice scripts = some q) : q ≠ "" :=
  jsonLdFold_ne_empty scripts none (by simp) q h

/-- C1: for every fetched document and optionally matched site profile,
the extracted price follows the strict fallback order of extractPrice:
a non-empty profile selector match wins; otherwise a JSON-LD
Product/ProductGroup offers price (currency-prefixed) wins; otherwise a
present product:price:amount meta tag yields its content prefixed by the
currency, defaulting to the dollar sign; otherwise the result is exactly
"Check Site". -/
theorem price_fallback_order (doc : Doc) (cfg : Option SiteConfig) :
    (∀ p : String, profilePrice doc cfg = some p → extractPrice doc cfg = p) ∧
    (profilePrice doc cfg = none →
      ∀ q : String, jsonLdPrice doc.ldScripts = some q → extractPrice doc cfg = q) ∧
    (profilePrice doc cfg = none → jsonLdPrice doc.ldScripts = none →
      ∀ a : String, doc.metaPriceAmount = some a → a ≠ "" →
        extractPrice doc cfg =
          (if strTruthy doc.metaPriceCurrency then doc.metaPriceCurrency.getD "" else "$") ++ a) ∧
    (profilePrice doc cfg = none → jsonLdPrice doc.ldScripts = none →
      strTruthy doc.metaPriceAmount = false →
      extractPrice doc cfg = "Check Site") := by
  refine ⟨?_, ?_, ?_, ?_⟩
  · intro p hp
    have hne : p ≠ "" := profilePrice_ne_empty hp
    simp [extractPrice, hp, strTruthy, hne]
  · intro h0 q hq
    have hne : q ≠ "" := jsonLdPrice_ne_empty hq
    simp [extractPrice, h0, hq, strTruthy, hne]
  · intro h0 h1 a ha hane
    simp [extractPrice, h0, h1, ha, strTruthy, hane]
  · intro h0 h1 h2
    cases hma : doc.metaPriceAmount with
    | none => simp [extractPrice, h0, h1, hma, strTruthy]
    | some a =>
      rw [hma] at h2
      have ha : a = "" := by simpa [strTruthy] using h2
      subst ha
      simp [extractPrice, h0, h1, hma, strTruthy]

/-- C1 witness: concrete documents exercising the final fallback and the
JSON-LD tier. -/
theorem price_fallback_order_witness :
    (profilePrice docEmpty none = none ∧ jsonLdPrice docEmpty.ldScripts = none ∧
      strTruthy docEmpty.metaPriceAmount = false ∧
      extractPrice docEmpty none = "Check Site") ∧
    (profilePrice docLdOne none = none ∧
      jsonLdPrice docLdOne.ldScripts = some "USD 10" ∧
      extractPrice docLdOne none = "USD 10") :=
  ⟨⟨rfl, rfl, rfl, (price_fallback_order docEmpty none).2.2.2 rfl rfl rfl⟩,
    ⟨rfl, by decide, (price_fallback_order docLdOne none).2.1 rfl "USD 10" (by decide)⟩⟩

/-- C2 counterexample: the first JSON-LD block already yields a price,
yet adding a later matching block changes the extracted price, so the
first match does not win across blocks. -/
theorem jsonld_later_block_overwrites :
    extractPrice docLdOne none = "USD 10" ∧
    extractPrice docLdTwo none = "EUR 20" ∧
    ¬ extractPrice docLdTwo none = "USD 10" := by decide

lemma foldl_jsonLdStep_eq (scripts : List LdScript) :
    ∀ acc : Option String,
      scripts.foldl jsonLdStep acc =
        ((scripts.filterMap blockPrice).getLast?).elim acc some := by
  induction scripts with
  | nil => intro acc; rfl
  | cons s ss ih =>
    intro acc
    rw [List.foldl_cons, ih]
    cases hbp : blockPrice s with
    | none =>
      have hstep : jsonLdStep acc s = acc := by simp [jsonLdStep, hbp]
      rw [hstep, List.filterMap_cons_none hbp]
    | some p =>
      have hstep : jsonLdStep acc s = some p := by simp [jsonLdStep, hbp]
      rw [hstep, List.filterMap_cons_some hbp]
      cases ht : ss.filterMap blockPrice with
      | nil => rfl
      | cons q ts =>
        rw [List.getLast?_cons_cons]
        have hne : (q :: ts) ≠ [] := by simp
        obtain ⟨x, hx⟩ := Option.isSome_iff_exists.mp (by
          rw [List.getLast?_isSome]; exact hne)
        rw [hx]
        rfl

/-- C2 (amended): price extraction does not stop at the first matching
JSON-LD block; instead each later matching block overwrites the price,
so the extracted price is the last successful match across the blocks of
the page, while within a single block the first matching item wins. -/
theorem jsonld_last_match_wins (scripts : List LdScript) :
    jsonLdPrice scripts = (scripts.filterMap blockPrice).getLast? ∧
    ∀ items : List LdItem, blockPrice (some items) = items.findSome? itemPrice := by
  constructor
  · have h := foldl_jsonLdStep_eq scripts none
    rw [jsonLdPrice, h]
    cases (scripts.filterMap blockPrice).getLast? <;> rfl
  · intro items; rfl

lemma mem_firstSeenDedupAux :
    ∀ (l seen : List String) (x : String),
      x ∈ firstSeenDedupAux seen l ↔ x ∈ l ∧ x ∉ seen := by
  intro l
  induction l with
  | nil => intro seen x; simp [firstSeenDedupAux]
  | cons y ys ih =>
    intro seen x
    by_cases hy : y ∈ seen
    · rw [firstSeenDedupAux, if_pos hy, ih]
      simp only [List.mem_cons]
      by_cases hxy : x = y
      · subst hxy; tauto
      · tauto
    · rw [firstSeenDedupAux, if_neg hy]
      simp only [List.mem_cons, ih]
      by_cases hxy : x = y
      · subst hxy
        exact ⟨fun _ => ⟨Or.inl rfl, hy⟩, fun _ => Or.inl rfl⟩
      · tauto

lemma sublist_firstSeenDedupAux :
    ∀ (l seen : List String), (firstSeenDedupAux seen l).Sublist l := by
  intro l
  induction l with
  | nil => intro seen; simp [firstSeenDedupAux]
  | cons y ys ih =>
    intro seen
    by_cases hy : y ∈ seen
    · rw [firstSeenDedupAux, if_pos hy]
      exact (ih seen).cons y
    · rw [firstSeenDedupAux, if_neg hy]
      exact (ih (y :: seen)).cons₂ y

lemma nodup_firstSeenDedupAux :
    ∀ (l seen : List String), (firstSeenDedupAux seen l).Nodup := by
  intro l
  induction l with
  | nil => intro seen; simp [firstSeenDedupAux]
  | cons y ys ih =>
    intro seen
    by_cases hy : y ∈ seen
    · rw [firstSeenDedupAux, if_pos hy]; exact ih seen
    · rw [firstSeenDedupAux, if_neg hy]
      refine List.nodup_cons.mpr ⟨?_, ih (y :: seen)⟩
      intro hmem
      exact ((mem_firstSeenDedupAux ys (y :: seen) y).mp hmem).2 (List.mem_cons_self y seen)

/-- C7: the URL discoverer returns exactly the regex matches with
trailing punctuation stripped (that is what extractUrlsFromText
computes), deduplicated while preserving first-seen order: the result is
a duplicate-free sublist of the match list containing exactly its
elements; and on the concrete duplicate-with-trailing-period input it
yields exactly one URL. -/
theorem url_discovery_dedup :
    (∀ t : String, discoverUrls (RawInput.str t) = firstSeenDedup (extractUrlsFromText t)) ∧
    (∀ t : String, (discoverUrls (RawInput.str t)).Nodup) ∧
    (∀ t : String, (discoverUrls (RawInput.str t)).Sublist (extractUrlsFromText t)) ∧
    (∀ t u : String, u ∈ discoverUrls (RawInput.str t) ↔ u ∈ extractUrlsFromText t) ∧
    discoverUrls (RawInput.str "Check this out https://example.com/a and also https://example.com/a.") =
      ["https://example.com/a"] := by
  refine ⟨fun t => rfl, ?_, ?_, ?_, by decide⟩
  · intro t; exact nodup_firstSeenDedupAux _ []
  · intro t; exact sublist_firstSeenDedupAux _ []
  · intro t u
    rw [show discoverUrls (RawInput.str t) = firstSeenDedupAux [] (extractUrlsFromText t) from rfl,
        mem_firstSeenDedupAux]
    simp

lemma lookupRow_insertOrReplace_ne (t : List ProductData) (p : ProductData)
    (id : String) (ws : Nat) (h : p.id ≠ id) :
    lookupRow (insertOrReplace t p) id ws = lookupRow t id ws := by
  have hq : (p.id == id && p.workspace_id == ws) = false := by
    have h1 : (p.id == id) = false := beq_eq_false_iff_ne.mpr h
    simp [h1]
  unfold insertOrReplace
  induction t with
  | nil =>
    simp [lookupRow, hq]
  | cons r tl ih =>
    simp only [List.filter_cons]
    by_cases hf : (r.id == p.id && r.workspace_id == p.workspace_id) = true
    · rw [if_neg (by simp [hf])]
      have hr : r.id = p.id := by
        have h2 := hf
        simp only [Bool.and_eq_true, beq_iff_eq] at h2
        exact h2.1
      have hqr : (r.id == id && r.workspace_id == ws) = false := by
        have h3 : (r.id == id) = false := beq_eq_false_iff_ne.mpr (hr ▸ h)
        simp [h3]
      rw [show lookupRow (r :: tl) id ws = lookupRow tl id ws by
            simp [lookupRow, hqr]]
      exact ih
    · have hf2 : (r.id == p.id && r.workspace_id == p.workspace_id) = false := by
        revert hf
        cases r.id == p.id && r.workspace_id == p.workspace_id <;> simp
      rw [if_pos (by simp [hf2]), List.cons_append]
      by_cases hqr : (r.id == id && r.workspace_id == ws) = true
      · simp [lookupRow, hqr]
      · have hqr2 : (r.id == id && r.workspace_id == ws) = false := by
          revert hqr
          cases r.id == id && r.workspace_id == ws <;> simp
        rw [show ∀ rest : List ProductData,
              lookupRow (r :: rest) id ws = lookupRow rest id ws from
              fun rest => by simp [lookupRow, hqr2],
            show lookupRow (r :: tl) id ws = lookupRow tl id ws by
              simp [lookupRow, hqr2]]
        exact ih

lemma keysUnique_insertOrReplace (t : List ProductData) (p : ProductData)
    (h : keysUnique t) : keysUnique (insertOrReplace t p) := by
  unfold keysUnique at h ⊢
  unfold insertOrReplace
  rw [List.map_append]
  refine List.Nodup.append ?_ (by simp) ?_
  · exact List.Nodup.sublist (List.Sublist.map _ (List.filter_sublist t)) h
  · intro a ha hb
    simp only [List.map_cons, List.map_nil, List.mem_singleton] at hb
    obtain ⟨r, hr, hkey⟩ := List.mem_map.mp ha
    have hf := (List.mem_filter.mp hr).2
    have hpair : r.id = p.id ∧ r.workspace_id = p.workspace_id := by
      have heq := hkey.trans hb
      exact ⟨congrArg Prod.fst heq, congrArg Prod.snd heq⟩
    simp [hpair.1, hpair.2] at hf

lemma processUrl_results (env : Env) (st : ScrapeState) (url : String) :
    (processUrl env st url).results = st.results ++ [soloRecord env st.table url] := by
  unfold processUrl soloRecord
  cases h : lookupEnv env st.table url with
  | some cached => simp only [h]
  | none =>
    cases hf : env.fetch url with
    | none => simp only [h, hf]
    | some doc => simp only [h, hf]

lemma processUrl_fetchLog (env : Env) (st : ScrapeState) (url : String) :
    (processUrl env st url).fetchLog =
      st.fetchLog ++ (if needsFetch env st.table url then [url] else []) := by
  unfold processUrl needsFetch
  cases h : lookupEnv env st.table url with
  | some cached => simp [h]
  | none =>
    cases hf : env.fetch url with
    | none => simp [h, hf]
    | some doc => simp [h, hf]

lemma processUrl_table_lookup (env : Env) (st : ScrapeState) (url : String)
    (id : String) (ws : Nat) (h : env.hash url ≠ id) :
    lookupRow (processUrl env st url).table id ws = lookupRow st.table id ws := by
  unfold processUrl
  cases hc : lookupEnv env st.table url with
  | some cached => simp only [hc]
  | none =>
    cases hf : env.fetch url with
    | none => simp only [hc, hf]
    | some doc =>
      simp only [hc, hf]
      by_cases hw : (env.dbEnabled && env.putOk (buildRecord env.hash env.wsId url doc)) = true
      · rw [if_pos hw]
        exact lookupRow_insertOrReplace_ne _ _ _ _ h
      · rw [if_neg hw]

lemma processUrl_keysUnique (env : Env) (st : ScrapeState) (url : String)
    (h : keysUnique st.table) : keysUnique (processUrl env st url).table := by
  unfold processUrl
  cases hc : lookupEnv env st.table url with
  | some cached => simpa only [hc] using h
  | none =>
    cases hf : env.fetch url with
    | none => simpa only [hc, hf] using h
    | some doc =>
      simp only [hc, hf]
      by_cases hw : (env.dbEnabled && env.putOk (buildRecord env.hash env.wsId url doc)) = true
      · rw [if_pos hw]
        exact keysUnique_insertOrReplace _ _ h
      · rw [if_neg hw]
        exact h

lemma scrapeLoop_cons (env : Env) (u : String) (urls : List String) (st : ScrapeState) :
    scrapeLoop env (u :: urls) st = scrapeLoop env urls (processUrl env st u) := rfl

lemma scrapeLoop_keysUnique (env : Env) :
    ∀ (urls : List String) (st : ScrapeState),
      keysUnique st.table → keysUnique (scrapeLoop env urls st).table := by
  intro urls
  induction urls with
  | nil => intro st h; exact h
  | cons u us ih =>
    intro st h
    rw [scrapeLoop_cons]
    exact ih _ (processUrl_keysUnique env st u h)

lemma scrapeLoop_spec (env : Env) (t0 : List ProductData) :
    ∀ (urls : List String) (st : ScrapeState),
      (urls.map env.hash).Nodup →
      (∀ u ∈ urls, lookupRow st.table (env.hash u) env.wsId = lookupRow t0 (env.hash u) env.wsId) →
      (scrapeLoop env urls st).results = st.results ++ urls.map (soloRecord env t0) ∧
      (scrapeLoop env urls st).fetchLog = st.fetchLog ++ urls.filter (needsFetch env t0) := by
  intro urls
  induction urls with
  | nil => intro st _ _; simp [scrapeLoop]
  | cons u us ih =>
    intro st hnd hagree
    have hndm : (env.hash u :: us.map env.hash).Nodup := by simpa using hnd
    have hagU : lookupRow st.table (env.hash u) env.wsId = lookupRow t0 (env.hash u) env.wsId :=
      hagree u (List.mem_cons_self u us)
    have hLE : lookupEnv env st.table u = lookupEnv env t0 u := by
      unfold lookupEnv
      rw [hagU]
    have hsolo : soloRecord env st.table u = soloRecord env t0 u := by
      unfold soloRecord
      rw [hLE]
    have hnf : needsFetch env st.table u = needsFetch env t0 u := by
      unfold needsFetch
      rw [hLE]
    have hnd2 : (us.map env.hash).Nodup := (List.nodup_cons.mp hndm).2
    have hne : ∀ v ∈ us, env.hash v ≠ env.hash u := by
      intro v hv heq
      have hnm : env.hash u ∉ us.map env.hash := (List.nodup_cons.mp hndm).1
      exact hnm (heq ▸ List.mem_map_of_mem env.hash hv)
    have hagree2 : ∀ v ∈ us,
        lookupRow (processUrl env st u).table (env.hash v) env.wsId =
          lookupRow t0 (env.hash v) env.wsId := by
      intro v hv
      rw [processUrl_table_lookup env st u (env.hash v) env.wsId (Ne.symm (hne v hv))]
      exact hagree v (List.mem_cons_of_mem u hv)
    obtain ⟨hres, hlog⟩ := ih (processUrl env st u) hnd2 hagree2
    constructor
    · rw [scrapeLoop_cons, hres, processUrl_results, hsolo]
      simp [List.map_cons, List.append_assoc]
    · rw [scrapeLoop_cons, hlog, processUrl_fetchLog, hnf, List.filter_cons]
      by_cases h : needsFetch env t0 u = true
      · simp [h, List.append_assoc]
      · simp only [Bool.not_eq_true] at h
        simp [h]

/-- C3: for every batch, the response holds exactly one record per
discovered, deduplicated URL, in discovery order, and each record is a
function of the initial cache and that URL alone, so one URL failing
cannot abort, drop or reorder the others; a URL whose cache lookup
misses and whose fetch fails yields exactly the error stub with the
literal error fields. -/
theorem scrape_batch_isolation (env : Env) (t0 : List ProductData) (raw : RawInput)
    (htr : rawTruthy raw = true)
    (hids : ((discoverUrls raw).map env.hash).Nodup) :
    (scrapeEndpoint env t0 raw).1 =
      ScrapeResponse.ok ((discoverUrls raw).map (soloRecord env t0)) ∧
    ((discoverUrls raw).map (soloRecord env t0)).length = (discoverUrls raw).length ∧
    (∀ u : String, lookupEnv env t0 u = none → env.fetch u = none →
      soloRecord env t0 u = errStub (env.hash u) u ∧
      (errStub (env.hash u) u).title = "Error Loading Product" ∧
      (errStub (env.hash u) u).error = some "Failed to load product data" ∧
      (errStub (env.hash u) u).image = "" ∧
      (errStub (env.hash u) u).price = "" ∧
      (errStub (env.hash u) u).size = "" ∧
      (errStub (env.hash u) u).url = u ∧
      (errStub (env.hash u) u).id = env.hash u) := by
  have hspec :=
    scrapeLoop_spec env t0 (discoverUrls raw) ⟨t0, [], []⟩ hids (fun u _ => rfl)
  refine ⟨?_, List.length_map _ _, ?_⟩
  · simp only [scrapeEndpoint, htr, if_true]
    rw [hspec.1]
    rfl
  · intro u h1 h2
    refine ⟨?_, rfl, rfl, rfl, rfl, rfl, rfl, rfl⟩
    unfold soloRecord
    rw [h1, h2]

/-- C3 witness: a concrete batch with one failing URL. -/
theorem scrape_batch_isolation_witness :
    rawTruthy (RawInput.str "see http://a ok") = true ∧
    ((discoverUrls (RawInput.str "see http://a ok")).map env0.hash).Nodup ∧
    (scrapeEndpoint env0 [] (RawInput.str "see http://a ok")).1 =
      ScrapeResponse.ok
        ((discoverUrls (RawInput.str "see http://a ok")).map (soloRecord env0 [])) :=
  ⟨by decide, by decide,
    (scrape_batch_isolation env0 [] (RawInput.str "see http://a ok")
      (by decide) (by decide)).1⟩

/-- C4: a URL whose (id, scope) key is in the cache when its turn comes
is answered from the stored row, and the network is never touched for
it: it does not appear in the fetch log of the whole batch. -/
theorem cache_hit_short_circuit (env : Env) (t0 : List ProductData) (raw : RawInput)
    (u : String) (row : ProductData)
    (hdb : env.dbEnabled = true) (htr : rawTruthy raw = true)
    (hids : ((discoverUrls raw).map env.hash).Nodup)
    (_hmem : u ∈ discoverUrls raw)
    (hhit : lookupRow t0 (env.hash u) env.wsId = some row) :
    u ∉ (scrapeEndpoint env t0 raw).2.fetchLog ∧
    soloRecord env t0 u = okRecord row ∧
    (scrapeEndpoint env t0 raw).1 =
      ScrapeResponse.ok ((discoverUrls raw).map (soloRecord env t0)) := by
  have hspec :=
    scrapeLoop_spec env t0 (discoverUrls raw) ⟨t0, [], []⟩ hids (fun v _ => rfl)
  have hLE : lookupEnv env t0 u = some row := by
    unfold lookupEnv
    rw [hdb, if_pos rfl, hhit]
  have hnf : needsFetch env t0 u = false := by
    unfold needsFetch
    rw [hLE]
    rfl
  refine ⟨?_, ?_, ?_⟩
  · simp only [scrapeEndpoint, htr, if_true]
    rw [hspec.2]
    intro hmemlog
    have hm2 := List.mem_filter.mp (by simpa using hmemlog)
    rw [hnf] at hm2
    exact Bool.false_ne_true hm2.2
  · unfold soloRecord
    rw [hLE]
  · simp only [scrapeEndpoint, htr, if_true]
    rw [hspec.1]
    rfl

/-- C4 witness: a concrete cached row answered without any fetch. -/
theorem cache_hit_short_circuit_witness :
    "http://a" ∉ (scrapeEndpoint env0 [rowA] (RawInput.str "http://a")).2.fetchLog ∧
    soloRecord env0 [rowA] "http://a" = okRecord rowA :=
  have h := cache_hit_short_circuit env0 [rowA] (RawInput.str "http://a") "http://a" rowA
    rfl (by decide) (by decide) (by decide) (by decide)
  ⟨h.1, h.2.1⟩

/-- C5 counterexample: after a failed scrape of a fresh URL nothing is
stored under its key, and the next identical request attempts the fetch
again instead of returning a stored error record from the cache. -/
theorem failed_scrape_retried_cex :
    lookupRow (scrapeLoop env0 ["http://x"] ⟨[], [], []⟩).table "http://x" 1 = none ∧
    (scrapeLoop env0 ["http://x"]
        ⟨(scrapeLoop env0 ["http://x"] ⟨[], [], []⟩).table, [], []⟩).fetchLog =
      ["http://x"] ∧
    (scrapeLoop env0 ["http://x"] ⟨[], [], []⟩).results =
      [errStub "http://x" "http://x"] := by decide

/-- C5 (amended): a failed scrape is not recorded in the cache: the
table is left unchanged, so the next identical request for the same URL
and scope misses the cache and retries the fetch, producing a fresh
error stub rather than a stored record. -/
theorem failed_scrape_not_cached (env : Env) (t0 : List ProductData) (u : String)
    (hmiss : lookupEnv env t0 u = none) (hfail : env.fetch u = none) :
    (scrapeLoop env [u] ⟨t0, [], []⟩).table = t0 ∧
    (scrapeLoop env [u] ⟨t0, [], []⟩).results = [errStub (env.hash u) u] ∧
    (scrapeLoop env [u] ⟨t0, [], []⟩).fetchLog = [u] ∧
    (scrapeLoop env [u] ⟨(scrapeLoop env [u] ⟨t0, [], []⟩).table, [], []⟩).fetchLog = [u] := by
  have hstep : ∀ st : ScrapeState, st.table = t0 →
      processUrl env st u =
        { st with fetchLog := st.fetchLog ++ [u],
                  results := st.results ++ [errStub (env.hash u) u] } := by
    intro st hst
    unfold processUrl
    rw [show lookupEnv env st.table u = none from hst ▸ hmiss, hfail]
  have h1 : scrapeLoop env [u] ⟨t0, [], []⟩ =
      ⟨t0, [u], [errStub (env.hash u) u]⟩ := by
    show processUrl env ⟨t0, [], []⟩ u = _
    rw [hstep ⟨t0, [], []⟩ rfl]
    rfl
  refine ⟨by rw [h1], by rw [h1], by rw [h1], ?_⟩
  rw [h1]
  show (processUrl env ⟨t0, [], []⟩ u).fetchLog = [u]
  rw [hstep ⟨t0, [], []⟩ rfl]
  rfl

/-- C5 witness for the amended statement, at a concrete failing URL. -/
theorem failed_scrape_not_cached_witness :
    (scrapeLoop env0 ["http://x"] ⟨[], [], []⟩).table = [] ∧
    (scrapeLoop env0 ["http://x"]
        ⟨(scrapeLoop env0 ["http://x"] ⟨[], [], []⟩).table, [], []⟩).fetchLog = ["http://x"] :=
  have h := failed_scrape_not_cached env0 [] "http://x" rfl rfl
  ⟨h.1, h.2.2.2⟩

/-- C6: within the documented input shapes (absent, a text block, or a
sequence of text blocks) the request is rejected with the client error
exactly when the raw input is absent or the empty string; and every
truthy raw input that yields no discoverable URLs produces a successful
empty list, not an error. -/
theorem reject_iff_absent_or_empty (env : Env) (t0 : List ProductData) :
    (∀ raw : RawInput,
      (raw = RawInput.absent ∨ (∃ s, raw = RawInput.str s) ∨ (∃ l, raw = RawInput.arr l)) →
      ((scrapeEndpoint env t0 raw).1 = ScrapeResponse.clientError "Invalid input." ↔
        raw = RawInput.absent ∨ raw = RawInput.str "")) ∧
    (∀ raw : RawInput, rawTruthy raw = true → discoverUrls raw = [] →
      (scrapeEndpoint env t0 raw).1 = ScrapeResponse.ok []) := by
  constructor
  · rintro raw (rfl | ⟨s, rfl⟩ | ⟨l, rfl⟩)
    · simp [scrapeEndpoint, rawTruthy]
    · by_cases hs : s = ""
      · subst hs
        simp [scrapeEndpoint, rawTruthy]
      · simp [scrapeEndpoint, rawTruthy, hs]
    · simp [scrapeEndpoint, rawTruthy]
  · intro raw htr hurls
    simp [scrapeEndpoint, htr, hurls, scrapeLoop]

/-- C6 witness: the empty string is rejected, a non-empty string without
URLs yields the empty success list. -/
theorem reject_iff_absent_or_empty_witness :
    (scrapeEndpoint env0 [] (RawInput.str "")).1 =
      ScrapeResponse.clientError "Invalid input." ∧
    (scrapeEndpoint env0 [] (RawInput.str "no links here")).1 = ScrapeResponse.ok [] :=
  ⟨((reject_iff_absent_or_empty env0 []).1 (RawInput.str "")
      (Or.inr (Or.inl ⟨"", rfl⟩))).mpr (Or.inr rfl),
    (reject_iff_absent_or_empty env0 []).2 (RawInput.str "no links here")
      (by decide) (by decide)⟩

/-- C8: the response of a scrape batch does not depend on the outcome of
the cache writes: with any two write outcome oracles the returned
record list is identical, so a write failure never changes what the
caller receives. -/
theorem cache_write_failure_response_unchanged (env : Env)
    (p1 p2 : ProductData → Bool) (t0 : List ProductData) (raw : RawInput)
    (hids : ((discoverUrls raw).map env.hash).Nodup) :
    (scrapeEndpoint { env with putOk := p1 } t0 raw).1 =
    (scrapeEndpoint { env with putOk := p2 } t0 raw).1 := by
  by_cases htr : rawTruthy raw = true
  · have e1 :=
      (scrapeLoop_spec { env with putOk := p1 } t0 (discoverUrls raw) ⟨t0, [], []⟩
        hids (fun v _ => rfl)).1
    have e2 :=
      (scrapeLoop_spec { env with putOk := p2 } t0 (discoverUrls raw) ⟨t0, [], []⟩
        hids (fun v _ => rfl)).1
    simp only [scrapeEndpoint, htr, if_true]
    rw [e1, e2]
    rfl
  · simp only [Bool.not_eq_true] at htr
    simp [scrapeEndpoint, htr]

/-- C8 witness: concrete batch with an always-failing write oracle. -/
theorem cache_write_failure_response_unchanged_witness :
    (scrapeEndpoint { env0 with putOk := fun _ => true } [] (RawInput.str "http://a")).1 =
    (scrapeEndpoint { env0 with putOk := fun _ => false } [] (RawInput.str "http://a")).1 :=
  cache_write_failure_response_unchanged env0 (fun _ => true) (fun _ => false) []
    (RawInput.str "http://a") (by decide)

/-- C9: the upsert keeps (id, workspace scope) keys unique: it preserves
the uniqueness invariant and leaves exactly one row carrying the new
key, namely the new record, so a repeated scrape overwrites rather than
duplicates; and every scrape batch preserves the invariant. -/
theorem cache_key_uniqueness (t0 : List ProductData) (h : keysUnique t0) :
    (∀ p : ProductData,
      keysUnique (insertOrReplace t0 p) ∧
      (insertOrReplace t0 p).filter
        (fun r => r.id == p.id && r.workspace_id == p.workspace_id) = [p]) ∧
    (∀ (env : Env) (urls : List String),
      keysUnique (scrapeLoop env urls ⟨t0, [], []⟩).table) := by
  constructor
  · intro p
    refine ⟨keysUnique_insertOrReplace t0 p h, ?_⟩
    unfold insertOrReplace
    rw [List.filter_append, List.filter_filter]
    have h1 : (t0.filter fun a =>
        (a.id == p.id && a.workspace_id == p.workspace_id) &&
          !(a.id == p.id && a.workspace_id == p.workspace_id)) = [] := by
      apply List.filter_eq_nil_iff.mpr
      intro a _
      simp [Bool.and_not_self]
    rw [h1, List.nil_append]
    simp
  · intro env urls
    exact scrapeLoop_keysUnique env urls ⟨t0, [], []⟩ h

/-- C9 witness: the invariant on concrete tables and a concrete batch. -/
theorem cache_key_uniqueness_witness :
    keysUnique (insertOrReplace [] rowA) ∧
    (insertOrReplace ([] : List ProductData) rowA).filter
      (fun r => r.id == rowA.id && r.workspace_id == rowA.workspace_id) = [rowA] ∧
    keysUnique (scrapeLoop env0 ["http://x"] ⟨[], [], []⟩).table :=
  have h := cache_key_uniqueness [] (by simp [keysUnique])
  ⟨(h.1 rowA).1, (h.1 rowA).2, h.2 env0 ["http://x"]⟩

/-- C10: a truthy raw input that is neither a string nor an array (a
non-zero number, true, or a plain object) is not rejected: no URLs are
discovered from it and the response is the successful empty list. -/
theorem truthy_nonstring_input_ok (env : Env) (t0 : List ProductData) (raw : RawInput)
    (htr : rawTruthy raw = true)
    (hs : ∀ s, raw ≠ RawInput.str s) (hl : ∀ l, raw ≠ RawInput.arr l) :
    (scrapeEndpoint env t0 raw).1 = ScrapeResponse.ok [] := by
  cases raw with
  | absent => simp [rawTruthy] at htr
  | str s => exact absurd rfl (hs s)
  | arr l => exact absurd rfl (hl l)
  | num n =>
    simp [scrapeEndpoint, htr, discoverUrls, rawUrls, firstSeenDedup, firstSeenDedupAux,
      scrapeLoop]
  | boolVal b =>
    simp [scrapeEndpoint, htr, discoverUrls, rawUrls, firstSeenDedup, firstSeenDedupAux,
      scrapeLoop]
  | obj =>
    simp [scrapeEndpoint, htr, discoverUrls, rawUrls, firstSeenDedup, firstSeenDedupAux,
      scrapeLoop]

/-- C10 witness: a plain object input yields the empty success list. -/
theorem truthy_nonstring_input_ok_witness :
    (scrapeEndpoint env0 [] RawInput.obj).1 = ScrapeResponse.ok [] :=
  truthy_nonstring_input_ok env0 [] RawInput.obj rfl
    (fun _ h => RawInput.noConfusion h) (fun _ h => RawInput.noConfusion h)

end LocalShop
